import Mathlib

/-!
Verification of the xgtools wavenumber-calibration engine (ftscalibrate).

The development embeds, over exact rational arithmetic, the data model and the
operations of `src/listcal.h`, `src/listcal.cpp`, `src/line.cpp` and the
driver loop of `src/ftscalibrate.cpp`:

* `Line`, `LinePair`, `ListCal` mirror the C++ records (`line.h` itself is
  absent from the sources; the effective-wavenumber getter is modelled from
  the spec, see `Line.wavenumber`).
* `findCommonLinesAux` / `findCommonLines` embed the two-pointer merge of
  `ListCal::findCommonLines` (listcal.cpp:104-149).
* `removeBadLinesGo` / `removeBadLines` embed the backward discard loop of
  `ListCal::removeBadLines` (listcal.cpp:192-212).
* `calcDiffStats` embeds `ListCal::calcDiffStats` (listcal.cpp:312-332).
* `solverLoop` / `findCorrection` embed the iteration scaffold of
  `ListCal::findCorrection` (listcal.cpp:236-302); the external GSL iterate is
  a parameter, its delta test (`gsl_multifit_test_delta`) is `testDelta`.
* `scaledResidual`, `derivFnEntry`, `fitChiSq` embed the GSL callback
  functions `fitFn` and `derivFn` (listcal.cpp:522-548).
* `createLine`, the checked setters and `getCentroidError` embed line.cpp.
* `saveLineRow` / `saveLineList` embed the error report of
  `ListCal::saveLineList` (listcal.cpp:458-512).

C `double` arithmetic is idealised as `ℚ`; the C library `sqrt` is embedded
as `ratSqrt`, which agrees with the real square root whenever the argument is
the square of a rational (the predicate `IsSqrt` pins those values in the
theorems below).
-/

/-- Exact square root on `ℚ`: equals the real square root of `x` whenever
`x` is the square of a nonnegative rational (`ratSqrt_eq_of_sq`); theorems
constrain its uses through `IsSqrt` hypotheses so only exact values matter. -/
def ratSqrt (x : ℚ) : ℚ :=
  (Nat.sqrt x.num.toNat : ℚ) / (Nat.sqrt x.den : ℚ)

/-- `s` is the (real) square root of `x`, expressed inside `ℚ`. -/
def IsSqrt (x s : ℚ) : Prop := 0 ≤ s ∧ s * s = x

/-- On exact squares, `ratSqrt` returns the root. -/
theorem ratSqrt_eq_of_sq {x s : ℚ} (h : IsSqrt x s) : ratSqrt x = s := by
  obtain ⟨hs, rfl⟩ := h
  have hnum : (s * s).num = s.num * s.num := Rat.mul_self_num s
  have hden : (s * s).den = s.den * s.den := Rat.mul_self_den s
  have hnn : 0 ≤ s.num := Rat.num_nonneg.mpr hs
  have hm : s.num = (s.num.toNat : ℤ) := (Int.toNat_of_nonneg hnn).symm
  have htn : (s * s).num.toNat = s.num.toNat * s.num.toNat := by
    rw [hnum, hm, ← Nat.cast_mul, Int.toNat_natCast, Int.toNat_natCast]
  unfold ratSqrt
  rw [htn, hden, Nat.sqrt_eq, Nat.sqrt_eq]
  rw [show ((s.num.toNat : ℚ)) = ((s.num : ℚ)) from by
        exact_mod_cast Int.toNat_of_nonneg hnn]
  exact Rat.num_div_den s

/-! ## Constants from listcal.h -/

/-- listcal.h:37 `#define LC_DATA_SCALE 1.0e6`. -/
def LC_DATA_SCALE : ℚ := 1000000

/-- listcal.h:41 `#define SOLVER_TOL 1.0e-12`. -/
def SOLVER_TOL : ℚ := 1 / 10 ^ 12

/-- listcal.h:42 `#define SOLVER_MAX_ITERATIONS 500`. -/
def SOLVER_MAX_ITERATIONS : Nat := 500

/-- ErrDefs.h error codes used by the calibration engine. -/
def LINE_NEGATIVE_WAVENUMBER : Int := 10

/-- ErrDefs.h:44. -/
def LINE_NEGATIVE_PEAK : Int := 11

/-- ErrDefs.h:45. -/
def LINE_NEGATIVE_WIDTH : Int := 12

/-- ErrDefs.h:55. -/
def LC_NO_OVERLAP : Int := 18

/-- ErrDefs.h:56. -/
def LC_NEGATIVE_VALUE : Int := 19

/-- ErrDefs.h:57. -/
def LC_NO_DATA : Int := 20

/-! ## The Line record (line.cpp; its header line.h is absent from src) -/

/-- The fields of the `Line` class that feed the calibration engine
(line.cpp).  The remaining writelines columns (damping, equivalent width,
iteration count, hold flag, tags, residual components) round-trip unchanged
through the engine and are not read by any operation verified here. -/
structure Line where
  Index : Int := 0
  Wavenumber : ℚ := 0
  Peak : ℚ := 0
  Width : ℚ := 0
  Wavelength : ℚ := 0
  Identification : String := ""
  WavenumberCorrection : ℚ := 0
deriving Repr, DecidableEq

/-- Modelled from the spec: `line.h` is absent from the sources (only
`line.cpp` is present), so the accessor bodies are taken from spec S3 [the
same getter appears in the sibling header xgline.h:87]: the effective
wavenumber is the raw wavenumber times `1 + correction`. -/
def Line.wavenumber (l : Line) : ℚ := l.Wavenumber * (1 + l.WavenumberCorrection)

/-- Modelled from the spec: peak amplitude accessor (line.h absent); the
amplitude is unaffected by the correction (spec S4.1, xgline.h:88). -/
def Line.peak (l : Line) : ℚ := l.Peak

/-- Modelled from the spec: `wavCorr` setter (line.h absent, xgline.h:125):
stores a new correction factor without rescaling the raw fields. -/
def Line.setWavCorr (l : Line) (NewCorr : ℚ) : Line :=
  { l with WavenumberCorrection := NewCorr }

/-- `Line::createLine` (line.cpp:98-136), numeric core.  The istringstream
tokenisation of the writelines record is file I/O; the parsed numeric fields
arrive as arguments.  No sign validation is performed on any field; the final
block removes the pre-applied wavenumber correction from the stored values. -/
def createLine (l : Line) (IndexIn : Int) (WavenumberIn PeakIn WidthIn : ℚ)
    (IdentificationIn : String) (WavelengthIn : ℚ) : Line :=
  { l with
    Index := IndexIn
    Wavenumber := WavenumberIn / (1 + l.WavenumberCorrection)
    Peak := PeakIn
    Width := WidthIn / (1 + l.WavenumberCorrection)
    Identification := IdentificationIn
    Wavelength := WavelengthIn * (1 + l.WavenumberCorrection) }

/-- `Line::wavenumber(double)` checked setter (line.cpp:223-230): a negative
value throws `LINE_NEGATIVE_WAVENUMBER` and leaves the field unchanged. -/
def Line.setWavenumber (l : Line) (NewWavenumber : ℚ) : Line × Option Int :=
  if NewWavenumber < 0 then (l, some LINE_NEGATIVE_WAVENUMBER)
  else ({ l with Wavenumber := NewWavenumber }, none)

/-- `Line::peak(double)` checked setter (line.cpp:232-239). -/
def Line.setPeak (l : Line) (NewPeakHeight : ℚ) : Line × Option Int :=
  if NewPeakHeight < 0 then (l, some LINE_NEGATIVE_PEAK)
  else ({ l with Peak := NewPeakHeight }, none)

/-- `Line::width(double)` checked setter (line.cpp:241-248). -/
def Line.setWidth (l : Line) (NewWidth : ℚ) : Line × Option Int :=
  if NewWidth < 0 then (l, some LINE_NEGATIVE_WIDTH)
  else ({ l with Width := NewWidth }, none)

/-- `Line::getCentroidError` (line.cpp:213-216): Brault centroid-location
uncertainty; reads the raw width and peak fields. -/
def getCentroidError (l : Line) (PointSpacing : ℚ) : ℚ :=
  let PointsInFwhm := l.Width / (1000 * PointSpacing)
  l.Width / (1000 * ratSqrt PointsInFwhm * l.Peak)

/-! ## LinePair and the ListCal state (listcal.h) -/

/-- listcal.h:50-53: a matched pair, one line from the uncalibrated list and
one from the standard.  The C++ struct holds pointers into the two vectors;
the lines are carried by value here (no operation below mutates a line
reached through a pair). -/
structure LinePair where
  List : Line
  Standard : Line
deriving Repr, DecidableEq

/-- The `ListCal` class state (listcal.h:92-108). -/
structure ListCal where
  FullLineList : List Line := []
  StandardList : List Line := []
  CommonLines : List LinePair := []
  FittedLines : List LinePair := []
  DiscardedLines : List LinePair := []
  WaveCorrection : ℚ := 0
  WaveCorrectionError : ℚ := 0
  Discriminator : ℚ := 1 / 10
  PeakAmpThreshold : ℚ := 50
  DiscardLimit : ℚ := 2
  LineListName : String := ""
  StandardListName : String := ""
  DiffMean : ℚ := 0
  DiffStdDev : ℚ := 0
  DiffStdErr : ℚ := 0
  PointSpacing : ℚ := 3 / 100
deriving Repr, DecidableEq

/-- `ListCal::ListCal()` (listcal.cpp:27-39) with the defaults of
listcal.h:31-34 and xgline.h:63. -/
def ListCal.init : ListCal := {}

/-! ## findCommonLines (listcal.cpp:104-149) -/

/-- The two-pointer merge loop of `ListCal::findCommonLines`
(listcal.cpp:119-144).  List recursion replaces the two cursors: the heads
are the elements at the cursors, a `::`-tail step advances that cursor.
Every loop iteration advances at least one cursor, so the sum of the two
remaining lengths is the loop variant; it enters as the `fuel` argument and
the fuel-exhausted base case is unreachable from `findCommonLinesAux`
(`findCommonLinesGo_fuel` shows any fuel at least the variant gives the same
result). -/
def findCommonLinesGo (Discriminator : ℚ) :
    Nat → List Line → List Line → List LinePair
  | fuel + 1, l :: ls, s :: ss =>
    if |s.wavenumber - l.wavenumber| < Discriminator then
      -- a common line has been found; advance both cursors
      ⟨l, s⟩ :: findCommonLinesGo Discriminator fuel ls ss
    else if s.wavenumber < l.wavenumber then
      -- the standard line is missing from the experiment; advance StdIndex
      findCommonLinesGo Discriminator fuel (l :: ls) ss
    else
      -- the experiment line is missing from the standard; advance ListIndex
      findCommonLinesGo Discriminator fuel ls (s :: ss)
  | _, _, _ => []

/-- The merge at its loop variant. -/
def findCommonLinesAux (Discriminator : ℚ) (ls ss : List Line) : List LinePair :=
  findCommonLinesGo Discriminator (ls.length + ss.length) ls ss

/-- `ListCal::findCommonLines` (listcal.cpp:104-149): empty input throws
`LC_NO_DATA`, an empty result throws `LC_NO_OVERLAP`, otherwise the merged
pairs replace `CommonLines`. -/
def findCommonLines (lc : ListCal) : Except Int ListCal :=
  if lc.FullLineList.length = 0 ∨ lc.StandardList.length = 0 then
    .error LC_NO_DATA
  else
    let cl := findCommonLinesAux lc.Discriminator lc.FullLineList lc.StandardList
    if cl.length = 0 then .error LC_NO_OVERLAP
    else .ok { lc with CommonLines := cl }

/-- `ListCal::findFittedLines` (listcal.cpp:158-183): selects the common
pairs whose list-line amplitude reaches the threshold. -/
def findFittedLines (lc : ListCal) : Except Int ListCal :=
  if lc.CommonLines.length = 0 then .error LC_NO_DATA
  else .ok { lc with
    FittedLines := lc.CommonLines.filter (fun p => p.List.peak ≥ lc.PeakAmpThreshold) }

/-! ## Residuals and the GSL callbacks (listcal.cpp:522-548) -/

/-- The scaled normalised residual
`(L*(1+eps) - S) * LC_DATA_SCALE / S`, computed identically at three places
in the source: the entries of `fitFn` (listcal.cpp:526-528), the discard test
of `removeBadLines` (listcal.cpp:196-198) and the accumulators of
`calcDiffStats` (listcal.cpp:317-319, 325-327). -/
def scaledResidual (Step : ℚ) (p : LinePair) : ℚ :=
  (p.List.wavenumber * (1 + Step) - p.Standard.wavenumber) * LC_DATA_SCALE
    / p.Standard.wavenumber

/-- `fitFn` (listcal.cpp:522-531): the residual vector handed to GSL. -/
def fitFn (Step : ℚ) (FittedLines : List LinePair) : List ℚ :=
  FittedLines.map (scaledResidual Step)

/-- `derivFn` (listcal.cpp:540-548): every entry of the Jacobian handed to
GSL is set to the constant `LC_DATA_SCALE`. -/
def derivFnEntry : ℚ := LC_DATA_SCALE

/-- The actual derivative of a `fitFn` entry with respect to the fit
parameter: `d/dStep scaledResidual Step p = L * LC_DATA_SCALE / S`. -/
def trueDerivEntry (p : LinePair) : ℚ :=
  p.List.wavenumber * LC_DATA_SCALE / p.Standard.wavenumber

/-- Sum of squared `fitFn` residuals: the least-squares objective the fit is
documented to minimise. -/
def fitChiSq (Step : ℚ) (ps : List LinePair) : ℚ :=
  (ps.map (fun p => scaledResidual Step p ^ 2)).sum

/-- `Σ (L_i/S_i)^2`: the denominator of the closed-form optimum. -/
def fitA (ps : List LinePair) : ℚ :=
  (ps.map (fun p => (p.List.wavenumber / p.Standard.wavenumber) ^ 2)).sum

/-- `Σ (L_i/S_i) * ((S_i-L_i)/S_i)`: the numerator of the closed-form
optimum. -/
def fitB (ps : List LinePair) : ℚ :=
  (ps.map (fun p => (p.List.wavenumber / p.Standard.wavenumber) *
    ((p.Standard.wavenumber - p.List.wavenumber) / p.Standard.wavenumber))).sum

/-- `Σ ((S_i-L_i)/S_i)^2`. -/
def fitC (ps : List LinePair) : ℚ :=
  (ps.map (fun p =>
    ((p.Standard.wavenumber - p.List.wavenumber) / p.Standard.wavenumber) ^ 2)).sum

/-- The closed-form least-squares optimum
`eps* = [Σ (L_i/S_i)*((S_i-L_i)/S_i)] / [Σ (L_i/S_i)^2]` (spec S4.3). -/
def epsStar (ps : List LinePair) : ℚ := fitB ps / fitA ps

/-- The gradient `Jᵀf` seen by the solver with the Jacobian that `derivFn`
actually supplies (every entry `LC_DATA_SCALE`): it is proportional to the
plain sum of the residuals. -/
def gradientCoded (Step : ℚ) (ps : List LinePair) : ℚ :=
  (ps.map (fun p => derivFnEntry * scaledResidual Step p)).sum

/-- `JᵀJ` for the coded constant Jacobian. -/
def fitJTJ (ps : List LinePair) : ℚ := (ps.length : ℚ) * LC_DATA_SCALE ^ 2

/-- The Gauss-Newton/Levenberg-Marquardt step induced by the coded Jacobian
at damping 0: `x - (JᵀJ)⁻¹ Jᵀf`.  (With damping `λ` the step is the same
vector scaled down; in particular it vanishes exactly when `Jᵀf = 0`.) -/
def lmStepCoded (ps : List LinePair) (x : ℚ) : ℚ :=
  x - gradientCoded x ps / fitJTJ ps

/-! ## The solver loop of findCorrection (listcal.cpp:264-302) -/

/-- `gsl_multifit_test_delta (dx, x, SOLVER_TOL, SOLVER_TOL)`: convergence
when `|dx| < epsabs + epsrel * |x|`. -/
def testDelta (dx x tol : ℚ) : Bool := |dx| < tol + tol * |x|

/-- The do-while iteration of `ListCal::findCorrection`
(listcal.cpp:268-275), with the external `gsl_multifit_fdfsolver_iterate`
abstracted as a step function on the single fit parameter.  Returns the
final iterate together with the final delta-test status (`true` when the
loop left because the test passed, `false` when the iteration bound was
reached with the test still failing).  `fuel` is the number of iterations
still allowed; the entry call uses `SOLVER_MAX_ITERATIONS`. -/
def solverLoop (step : ℚ → ℚ) (tol : ℚ) : Nat → ℚ → ℚ × Bool
  | 0, x => (x, true)
  | fuel + 1, x =>
    let x' := step x
    if testDelta (x' - x) x' tol then (x', true)
    else if fuel = 0 then (x', false)
    else solverLoop step tol fuel x'

/-! ## calcDiffStats (listcal.cpp:312-332) -/

/-- `ListCal::calcDiffStats` (listcal.cpp:312-332): the two accumulation
loops become left folds in source order; the library `sqrt` is `ratSqrt`. -/
def calcDiffStats (lc : ListCal) : ListCal :=
  let n : ℚ := (lc.FittedLines.length : ℚ)
  let meanAcc :=
    lc.FittedLines.foldl (fun acc p => acc + scaledResidual lc.WaveCorrection p) 0
  let DiffMean := meanAcc / n
  let sqAcc :=
    lc.FittedLines.foldl
      (fun acc p => acc + (scaledResidual lc.WaveCorrection p - DiffMean) ^ 2) 0
  let DiffStdDev := ratSqrt (sqAcc / n)
  let DiffStdErr := DiffStdDev / ratSqrt n
  { lc with DiffMean := DiffMean, DiffStdDev := DiffStdDev, DiffStdErr := DiffStdErr }

/-- `ListCal::findCorrection` (listcal.cpp:236-302).  The GSL machinery is
external: the solver iterate enters as `step` and the covariance-based
parameter error (`c*ERR(0)`, listcal.cpp:282-293) enters as `wce`; neither
is constrained by the claims below.  The function runs the bounded solver
loop from the stored `WaveCorrection`, stores the final iterate and the
error unconditionally, recomputes the residual statistics, and - the point
of the `Except` return type - never produces an error value: the source
contains no size check and no throw. -/
def findCorrection (step : ℚ → ℚ) (wce : ℚ) (lc : ListCal) : Except Int ListCal :=
  let r := solverLoop step SOLVER_TOL SOLVER_MAX_ITERATIONS lc.WaveCorrection
  Except.ok (calcDiffStats { lc with WaveCorrection := r.1, WaveCorrectionError := wce })

/-! ## removeBadLines (listcal.cpp:192-212) -/

/-- The discard test of `ListCal::removeBadLines` (listcal.cpp:199):
`|d_i| > |DiffMean| + DiscardLimit * DiffStdDev`. -/
def isBadLine (lc : ListCal) (p : LinePair) : Bool :=
  |scaledResidual lc.WaveCorrection p| > |lc.DiffMean| + lc.DiscardLimit * lc.DiffStdDev

/-- The backward erase loop of `removeBadLines` (listcal.cpp:195-210): the
index runs from the back of `FittedLines` to the front, bad pairs are pushed
onto the discard list in visit order and erased.  In the recursion the tail
(higher indices) is processed before the head. -/
def removeBadLinesGo (bad : LinePair → Bool) :
    List LinePair → List LinePair × List LinePair × Nat
  | [] => ([], [], 0)
  | p :: rest =>
    let r := removeBadLinesGo bad rest
    if bad p then (r.1, r.2.1 ++ [p], r.2.2 + 1)
    else (p :: r.1, r.2.1, r.2.2)

/-- `ListCal::removeBadLines` (listcal.cpp:192-212): returns the updated
state and the number of lines removed. -/
def removeBadLines (lc : ListCal) : ListCal × Nat :=
  let r := removeBadLinesGo (isBadLine lc) lc.FittedLines
  ({ lc with FittedLines := r.1, DiscardedLines := lc.DiscardedLines ++ r.2.1 }, r.2.2)

/-! ## saveLineList error report (listcal.cpp:458-512) -/

/-- One row of the `.cal` calibration report (listcal.cpp:502-508). -/
structure ReportRow where
  Index : Int
  RowWavenumber : ℚ
  ScaleError : ℚ
  StdDevError : ℚ
  BraultError : ℚ
  FullError : ℚ
deriving Repr, DecidableEq

/-- `FullErrorStdDev` (listcal.cpp:497-498), computed once per report:
`sqrt(WaveCorrectionError^2 + (DiffStdDev/LC_DATA_SCALE)^2)`. -/
def fullErrorStdDev (lc : ListCal) : ℚ :=
  ratSqrt (lc.WaveCorrectionError ^ 2 + (lc.DiffStdDev / LC_DATA_SCALE) ^ 2)

/-- The per-line output of the report loop (listcal.cpp:499-509), applied to
a saved copy of the line (its correction set to the fitted value). -/
def saveLineRow (lc : ListCal) (l : Line) : ReportRow :=
  let FullErrorBrault :=
    ratSqrt ((l.wavenumber * lc.WaveCorrectionError) ^ 2 +
      getCentroidError l lc.PointSpacing ^ 2)
  { Index := l.Index
    RowWavenumber := l.wavenumber
    ScaleError := l.wavenumber * lc.WaveCorrectionError
    StdDevError := l.wavenumber * lc.DiffStdDev / LC_DATA_SCALE
    BraultError := getCentroidError l lc.PointSpacing
    FullError := max (l.wavenumber * fullErrorStdDev lc) FullErrorBrault }

/-- `ListCal::saveLineList` (listcal.cpp:458-512), the in-memory content of
the `.cal` report: the lines are copied, each copy's correction is set to
the fitted `WaveCorrection` (listcal.cpp:466-470), and one row is produced
per copy.  The method assigns to no member of `ListCal` (it works on the
copies precisely so as not to modify the stored list), which the returned
pair makes explicit: the state component is the argument itself. -/
def saveLineList (lc : ListCal) : ListCal × List ReportRow :=
  let SavedLines := lc.FullLineList.map (fun l => l.setWavCorr lc.WaveCorrection)
  (lc, SavedLines.map (saveLineRow lc))

/-! ## Helper lemmas -/

/-- The backward erase loop computes: kept lines are the filter of the good
ones in order, discards are the bad ones in reverse order (the loop visits
the vector back to front), and the count is the number of bad lines. -/
theorem removeBadLinesGo_eq (bad : LinePair → Bool) (ps : List LinePair) :
    removeBadLinesGo bad ps =
      (ps.filter (fun p => !bad p), (ps.filter bad).reverse,
        (ps.filter bad).length) := by
  induction ps with
  | nil => rfl
  | cons p rest ih =>
    by_cases h : bad p <;>
      simp [removeBadLinesGo, ih, List.filter_cons, h]

/-! ## C3 -/

/-- C3: for every state (in particular for the statistics frozen by the
preceding fit), `removeBadLines` removes from the fit set exactly the pairs
whose scaled residual `d_i` satisfies
`|d_i| > |DiffMean| + DiscardLimit * DiffStdDev`, appends exactly those
pairs to the discarded set, and returns the number of pairs removed. -/
theorem C3_removeBadLines_removes_exactly_outliers (lc : ListCal) :
    (removeBadLines lc).1.FittedLines
        = lc.FittedLines.filter (fun p => !isBadLine lc p) ∧
    (removeBadLines lc).1.DiscardedLines
        = lc.DiscardedLines ++ (lc.FittedLines.filter (isBadLine lc)).reverse ∧
    (removeBadLines lc).2 = (lc.FittedLines.filter (isBadLine lc)).length ∧
    ∀ p, isBadLine lc p = true ↔
      |scaledResidual lc.WaveCorrection p| >
        |lc.DiffMean| + lc.DiscardLimit * lc.DiffStdDev := by
  refine ⟨?_, ?_, ?_, fun p => ?_⟩ <;>
    simp [removeBadLines, removeBadLinesGo_eq, isBadLine]

/-! ## C10 -/

/-- C10: a call to `removeBadLines` changes only the fit-set/discarded-set
partition.  All other state components (fitted correction and its error, the
residual statistics, the configuration, the two line lists, the common
pairs) are unchanged; the old discarded set is a prefix of the new one; the
new fit set together with the newly discarded pairs is a permutation of the
old fit set (no pair lost or duplicated); and the returned count accounts
exactly for the shrinkage.  The discard decisions all use the statistics
frozen in the input state (the predicate of the `filter` characterisation in
the proof depends only on `lc`). -/
theorem C10_removeBadLines_frame (lc : ListCal) :
    (removeBadLines lc).1.WaveCorrection = lc.WaveCorrection ∧
    (removeBadLines lc).1.WaveCorrectionError = lc.WaveCorrectionError ∧
    (removeBadLines lc).1.DiffMean = lc.DiffMean ∧
    (removeBadLines lc).1.DiffStdDev = lc.DiffStdDev ∧
    (removeBadLines lc).1.DiffStdErr = lc.DiffStdErr ∧
    (removeBadLines lc).1.Discriminator = lc.Discriminator ∧
    (removeBadLines lc).1.PeakAmpThreshold = lc.PeakAmpThreshold ∧
    (removeBadLines lc).1.DiscardLimit = lc.DiscardLimit ∧
    (removeBadLines lc).1.PointSpacing = lc.PointSpacing ∧
    (removeBadLines lc).1.FullLineList = lc.FullLineList ∧
    (removeBadLines lc).1.StandardList = lc.StandardList ∧
    (removeBadLines lc).1.CommonLines = lc.CommonLines ∧
    (removeBadLines lc).1.DiscardedLines.take lc.DiscardedLines.length
        = lc.DiscardedLines ∧
    ((removeBadLines lc).1.FittedLines ++
        (removeBadLines lc).1.DiscardedLines.drop lc.DiscardedLines.length).Perm
      lc.FittedLines ∧
    (removeBadLines lc).1.FittedLines.length + (removeBadLines lc).2
        = lc.FittedLines.length := by
  have hgo := removeBadLinesGo_eq (isBadLine lc) lc.FittedLines
  have hperm :
      ((lc.FittedLines.filter (fun p => !isBadLine lc p)) ++
        (lc.FittedLines.filter (isBadLine lc)).reverse).Perm lc.FittedLines := by
    refine List.Perm.trans
      (List.Perm.append (List.Perm.refl _) (List.reverse_perm _)) ?_
    exact List.Perm.trans List.perm_append_comm
      (List.filter_append_perm (isBadLine lc) lc.FittedLines)
  have hlen := hperm.length_eq
  simp only [List.length_append, List.length_reverse] at hlen
  refine ⟨rfl, rfl, rfl, rfl, rfl, rfl, rfl, rfl, rfl, rfl, rfl, rfl, ?_, ?_, ?_⟩ <;>
    simp [removeBadLines, hgo, List.take_left, List.drop_left, hperm, hlen]

/-! ## C4 -/

/-- `ratSqrt` at the exact squares used by the concrete evaluations. -/
theorem ratSqrt_zero : ratSqrt 0 = 0 :=
  ratSqrt_eq_of_sq ⟨le_refl 0, by norm_num⟩

/-- `ratSqrt 1 = 1`. -/
theorem ratSqrt_one : ratSqrt 1 = 1 :=
  ratSqrt_eq_of_sq ⟨by norm_num, by norm_num⟩

/-- The delta test always passes on a zero step. -/
theorem testDelta_zero (x : ℚ) : testDelta 0 x SOLVER_TOL = true := by
  simp only [testDelta, SOLVER_TOL, decide_eq_true_eq, abs_zero]
  positivity

/-- An identity iterate converges at the first delta test. -/
theorem solverLoop_id (fuel : Nat) (x : ℚ) :
    solverLoop id SOLVER_TOL (fuel + 1) x = (x, true) := by
  simp [solverLoop, testDelta_zero x]

/-- A line with wavenumber 1 and strong amplitude (fixture). -/
def lineOne : Line := { Wavenumber := 1, Peak := 100 }

/-- A pair matching `lineOne` against itself (fixture). -/
def pairOne : LinePair := ⟨lineOne, lineOne⟩

/-- A reachable-shaped state whose fit set has exactly one pair. -/
def lcOnePair : ListCal := { ListCal.init with FittedLines := [pairOne] }

/-- C4 counterexample: on a fit set with a single pair (not more than the
one fit parameter), the fit step completes with `ok` - it raises neither
`LC_NO_DATA` nor any insufficient-lines error (no such check exists in
`ListCal::findCorrection`, and `ftscalibrate.cpp`'s reject/refit loop has no
size floor either).  The solver iterate is the identity, which the delta
test accepts immediately. -/
theorem C4_counterexample_singleton_fit_ok :
    lcOnePair.FittedLines.length = 1 ∧
    findCorrection id 0 lcOnePair = .ok lcOnePair := by
  refine ⟨rfl, ?_⟩
  show Except.ok (calcDiffStats { lcOnePair with
      WaveCorrection := (solverLoop id SOLVER_TOL SOLVER_MAX_ITERATIONS
        lcOnePair.WaveCorrection).1,
      WaveCorrectionError := 0 }) = Except.ok lcOnePair
  rw [show SOLVER_MAX_ITERATIONS = 499 + 1 from rfl, solverLoop_id]
  congr 1
  norm_num [calcDiffStats, scaledResidual, Line.wavenumber, LC_DATA_SCALE,
    lcOnePair, pairOne, lineOne, ListCal.init, ratSqrt_zero, ratSqrt_one]

/-- C4 amended: the fit step performs no minimum-size check and never
signals an error: for every solver iterate, every covariance-path error
value and every state - including states whose fit set has 1 or 0 pairs -
`findCorrection` returns `ok`. -/
theorem C4_findCorrection_never_fails (step : ℚ → ℚ) (wce : ℚ) (lc : ListCal) :
    ∃ lc', findCorrection step wce lc = .ok lc' := ⟨_, rfl⟩

/-! ## C5 -/

/-- A divergent solver iterate: moves by 1 every iteration (fixture). -/
def stepAddOne : ℚ → ℚ := fun x => x + 1

/-- Under `stepAddOne` the delta test never passes while the iterate stays
below `10^10`, so the loop runs its full fuel and reports `false`. -/
theorem solverLoop_stepAddOne (fuel : Nat) (x : ℚ) (h0 : 0 ≤ x)
    (hb : x + fuel ≤ 10 ^ 10) :
    solverLoop stepAddOne SOLVER_TOL (fuel + 1) x = (x + ((fuel : ℚ) + 1), false) := by
  induction fuel generalizing x with
  | zero =>
    have hfalse : testDelta 1 (x + 1) SOLVER_TOL = false := by
      simp only [testDelta, SOLVER_TOL, decide_eq_false_iff_not, not_lt]
      rw [abs_of_nonneg (by linarith : (0:ℚ) ≤ x + 1), abs_one]
      simp only [Nat.cast_zero, add_zero] at hb
      rw [div_add' _ _ _ (by norm_num), div_le_one (by norm_num)] at *
      nlinarith
    simp [solverLoop, hfalse, stepAddOne]
  | succ n ih =>
    have hfalse : testDelta (stepAddOne x - x) (stepAddOne x) SOLVER_TOL = false := by
      simp only [testDelta, stepAddOne, SOLVER_TOL, decide_eq_false_iff_not, not_lt]
      rw [abs_of_nonneg (by linarith : (0:ℚ) ≤ x + 1)]
      rw [show x + 1 - x = 1 by ring, abs_one]
      have hb' : x + 1 ≤ 10 ^ 10 := by
        have h1 : (0 : ℚ) ≤ (n : ℚ) := Nat.cast_nonneg n
        push_cast at hb
        linarith
      rw [div_add' _ _ _ (by norm_num), div_le_one (by norm_num)]
      nlinarith
    have hrec := ih (x + 1) (by linarith)
      (by push_cast at hb ⊢; linarith)
    simp only [solverLoop, hfalse, Bool.false_eq_true, if_false,
      Nat.succ_ne_zero, stepAddOne] at *
    rw [hrec]
    simp only [Prod.mk.injEq, and_true]
    push_cast
    ring

/-- A single-pair state for the divergence scenario (fixture). -/
def lcDiverge : ListCal := { ListCal.init with FittedLines := [pairOne] }

/-- C5 counterexample: with a solver iterate that moves by 1 each time, the
loop reaches the iteration bound (500 iterations) with the delta test still
failing - the returned status is `false` - and yet `findCorrection` returns
`ok`, storing the unconverged 500th iterate as the correction.  No
divergence condition is reported: the source never inspects `Status` after
the loop (listcal.cpp:275-294). -/
theorem C5_counterexample_bound_reached_silently :
    solverLoop stepAddOne SOLVER_TOL SOLVER_MAX_ITERATIONS 0 = (500, false) ∧
    findCorrection stepAddOne 0 lcDiverge =
      .ok { lcDiverge with WaveCorrection := 500, DiffMean := 500000000 } := by
  have hloop : solverLoop stepAddOne SOLVER_TOL SOLVER_MAX_ITERATIONS 0 = (500, false) := by
    have h := solverLoop_stepAddOne 499 0 le_rfl (by norm_num)
    rw [show SOLVER_MAX_ITERATIONS = 499 + 1 from rfl, h]
    norm_num
  refine ⟨hloop, ?_⟩
  show Except.ok (calcDiffStats { lcDiverge with
      WaveCorrection := (solverLoop stepAddOne SOLVER_TOL SOLVER_MAX_ITERATIONS
        lcDiverge.WaveCorrection).1,
      WaveCorrectionError := 0 }) = _
  rw [show lcDiverge.WaveCorrection = 0 from rfl, hloop]
  congr 1
  norm_num [calcDiffStats, scaledResidual, Line.wavenumber, LC_DATA_SCALE,
    lcDiverge, pairOne, lineOne, ListCal.init, ratSqrt_zero, ratSqrt_one]

/-- C5 amended: whatever the delta-test status at loop exit - in particular
when the iteration bound was reached without convergence - `findCorrection`
stores the final iterate and the covariance-path error and returns success;
the convergence status is discarded and no divergence condition exists in
the interface. -/
theorem C5_unconverged_result_stored (step : ℚ → ℚ) (wce : ℚ) (lc : ListCal) :
    findCorrection step wce lc =
      .ok (calcDiffStats { lc with
        WaveCorrection :=
          (solverLoop step SOLVER_TOL SOLVER_MAX_ITERATIONS lc.WaveCorrection).1,
        WaveCorrectionError := wce }) := rfl

/-! ## C6 -/

/-- C6 counterexample: `Line::createLine` performs no sign validation, so a
writelines record carrying peak amplitude -1 constructs a `Line` whose
amplitude is negative; no `NegativeValue` error is raised on the
construction path (line.cpp:98-136 contains no sign check). -/
theorem C6_counterexample_createLine_accepts_negative_peak :
    (createLine {} 1 5 (-1) 3 "x" 2000).Peak = -1 ∧
    (createLine {} 1 5 (-1) 3 "x" 2000).Peak < 0 := by
  constructor <;> norm_num [createLine]

/-- C6 amended: mutation through the checked setters of the `Line` class is
validated - setting wavenumber, peak amplitude or width to a negative value
fails with the field-identifying error code and leaves the record unchanged -
but construction via `createLine` is not: it accepts a negative amplitude
(in particular -1) unvalidated. -/
theorem C6_setters_validate_construction_does_not (l : Line) (v : ℚ) (hv : v < 0) :
    l.setWavenumber v = (l, some LINE_NEGATIVE_WAVENUMBER) ∧
    l.setPeak v = (l, some LINE_NEGATIVE_PEAK) ∧
    l.setWidth v = (l, some LINE_NEGATIVE_WIDTH) ∧
    (createLine l 1 5 v 3 "x" 2000).Peak = v := by
  refine ⟨?_, ?_, ?_, rfl⟩ <;>
    simp [Line.setWavenumber, Line.setPeak, Line.setWidth, hv]

/-- C6 witness: the amended statement at the concrete rejected value -1. -/
theorem C6_setters_validate_witness :
    Line.setPeak {} (-1) = ({}, some LINE_NEGATIVE_PEAK) :=
  (C6_setters_validate_construction_does_not {} (-1) (by norm_num)).2.1

/-! ## C2 -/

/-- Any fuel at least the loop variant gives the merge's result: the
fuel-exhausted base case of `findCommonLinesGo` is unreachable from
`findCommonLinesAux`. -/
theorem findCommonLinesGo_fuel (d : ℚ) :
    ∀ (k : Nat) (ls ss : List Line), ls.length + ss.length = k →
      ∀ f, k ≤ f → findCommonLinesGo d f ls ss = findCommonLinesGo d k ls ss := by
  intro k
  induction k using Nat.strong_induction_on with
  | _ k ih =>
    intro ls ss hk f hf
    have hnil : ∀ (m : Nat) (ys : List Line), findCommonLinesGo d m [] ys = [] :=
      fun m ys => by cases m <;> rfl
    have hnil' : ∀ (m : Nat) (xs : List Line), findCommonLinesGo d m xs [] = [] :=
      fun m xs => by cases m <;> cases xs <;> rfl
    cases ls with
    | nil => rw [hnil, hnil]
    | cons l ls' =>
      cases ss with
      | nil => rw [hnil', hnil']
      | cons s ss' =>
        have hk2 : k = ls'.length + ss'.length + 2 := by
          simp only [List.length_cons] at hk
          omega
        subst hk2
        cases f with
        | zero => exact absurd hf (by omega)
        | succ f' =>
          simp only [findCommonLinesGo]
          by_cases h1 : |s.wavenumber - l.wavenumber| < d
          · rw [if_pos h1, if_pos h1]
            congr 1
            rw [ih (ls'.length + ss'.length) (by omega) ls' ss' rfl f' (by omega)]
            rw [ih (ls'.length + ss'.length) (by omega) ls' ss' rfl
              (ls'.length + ss'.length + 1) (by omega)]
          · rw [if_neg h1, if_neg h1]
            by_cases h2 : s.wavenumber < l.wavenumber
            · rw [if_pos h2, if_pos h2]
              rw [ih (ls'.length + ss'.length + 1) (by omega) (l :: ls') ss'
                (by simp only [List.length_cons]; omega) f' (by omega)]
            · rw [if_neg h2, if_neg h2]
              rw [ih (ls'.length + ss'.length + 1) (by omega) ls' (s :: ss')
                (by simp only [List.length_cons]; omega) f' (by omega)]

/-- Every emitted pair takes its components from the two input lists. -/
theorem mem_findCommonLinesGo (d : ℚ) :
    ∀ (f : Nat) (ls ss : List Line) (p : LinePair),
      p ∈ findCommonLinesGo d f ls ss → p.List ∈ ls ∧ p.Standard ∈ ss := by
  intro f
  induction f with
  | zero => intro ls ss p hp; simp [findCommonLinesGo] at hp
  | succ n ih =>
    intro ls ss p hp
    cases ls with
    | nil => simp [findCommonLinesGo] at hp
    | cons l ls' =>
      cases ss with
      | nil => simp [findCommonLinesGo] at hp
      | cons s ss' =>
        simp only [findCommonLinesGo] at hp
        split_ifs at hp with h1 h2
        · rcases List.mem_cons.mp hp with h | h
          · subst h
            exact ⟨List.mem_cons_self _ _, List.mem_cons_self _ _⟩
          · obtain ⟨hL, hS⟩ := ih ls' ss' p h
            exact ⟨List.mem_cons_of_mem _ hL, List.mem_cons_of_mem _ hS⟩
        · obtain ⟨hL, hS⟩ := ih (l :: ls') ss' p hp
          exact ⟨hL, List.mem_cons_of_mem _ hS⟩
        · obtain ⟨hL, hS⟩ := ih ls' (s :: ss') p hp
          exact ⟨List.mem_cons_of_mem _ hL, hS⟩

/-- With strictly increasing index fields on both inputs, the merge emits
pairs whose list indices and standard indices are both strictly increasing. -/
theorem findCommonLinesGo_pairwise (d : ℚ) :
    ∀ (f : Nat) (ls ss : List Line),
      ls.Pairwise (fun a b => a.Index < b.Index) →
      ss.Pairwise (fun a b => a.Index < b.Index) →
      (findCommonLinesGo d f ls ss).Pairwise (fun p q =>
        p.List.Index < q.List.Index ∧ p.Standard.Index < q.Standard.Index) := by
  intro f
  induction f with
  | zero => intro ls ss _ _; simp [findCommonLinesGo]
  | succ n ih =>
    intro ls ss hls hss
    cases ls with
    | nil => simp [findCommonLinesGo]
    | cons l ls' =>
      cases ss with
      | nil => simp [findCommonLinesGo]
      | cons s ss' =>
        simp only [findCommonLinesGo]
        rw [List.pairwise_cons] at hls hss
        split_ifs with h1 h2
        · refine List.Pairwise.cons (fun q hq => ?_) (ih ls' ss' hls.2 hss.2)
          have hmem := mem_findCommonLinesGo d n ls' ss' q hq
          exact ⟨hls.1 _ hmem.1, hss.1 _ hmem.2⟩
        · exact ih (l :: ls') ss' (List.pairwise_cons.mpr hls) hss.2
        · exact ih ls' (s :: ss') hls.2 (List.pairwise_cons.mpr hss)

/-- Fixture: the uncalibrated list of spec S8 test 1. -/
def exListLines : List Line :=
  [{ Index := 1, Wavenumber := 10 }, { Index := 2, Wavenumber := 20 },
   { Index := 3, Wavenumber := 30 }]

/-- Fixture: the standard list of spec S8 test 1. -/
def exStdLines : List Line :=
  [{ Index := 1, Wavenumber := 10001/1000 }, { Index := 2, Wavenumber := 25 },
   { Index := 3, Wavenumber := 30002/1000 }]

/-- Fixture: the matching state of spec S8 test 1 (discriminator 0.05). -/
def lcMatch : ListCal :=
  { ListCal.init with
    FullLineList := exListLines
    StandardList := exStdLines
    Discriminator := 1/20 }

/-- C2: the matcher is the two-pointer merge of listcal.cpp:119-144.  First,
for inputs with strictly increasing indices the emitted pairs consume each
list line and each standard line at most once (both index components are
strictly increasing across the output, so no line is reused).  Second, on
List = [10.00, 20.00, 30.00], Standard = [10.001, 25.00, 30.002] with
discriminator 0.05 the matcher emits exactly the pairs (10.00, 10.001) and
(30.00, 30.002). -/
theorem C2_two_pointer_merge_matching :
    (∀ (d : ℚ) (ls ss : List Line),
      ls.Pairwise (fun a b => a.Index < b.Index) →
      ss.Pairwise (fun a b => a.Index < b.Index) →
      (findCommonLinesAux d ls ss).Pairwise (fun p q =>
        p.List.Index < q.List.Index ∧ p.Standard.Index < q.Standard.Index)) ∧
    findCommonLines lcMatch = .ok { lcMatch with CommonLines :=
      [⟨{ Index := 1, Wavenumber := 10 }, { Index := 1, Wavenumber := 10001/1000 }⟩,
       ⟨{ Index := 3, Wavenumber := 30 }, { Index := 3, Wavenumber := 30002/1000 }⟩] } := by
  constructor
  · intro d ls ss hls hss
    exact findCommonLinesGo_pairwise d (ls.length + ss.length) ls ss hls hss
  · have haux : findCommonLinesAux (1/20) exListLines exStdLines =
        [⟨{ Index := 1, Wavenumber := 10 }, { Index := 1, Wavenumber := 10001/1000 }⟩,
         ⟨{ Index := 3, Wavenumber := 30 }, { Index := 3, Wavenumber := 30002/1000 }⟩] := by
      norm_num [findCommonLinesAux, findCommonLinesGo, exListLines, exStdLines,
        Line.wavenumber, abs_lt]
    norm_num [exListLines, exStdLines] at haux
    norm_num [findCommonLines, lcMatch, exListLines, exStdLines, haux]

/-! ## C9 -/

/-- The accumulation loops of `calcDiffStats` compute list sums. -/
theorem foldl_add_map {α : Type} (f : α → ℚ) (l : List α) (a : ℚ) :
    l.foldl (fun acc p => acc + f p) a = a + (l.map f).sum := by
  induction l generalizing a with
  | nil => simp
  | cons p rest ih => simp [ih, add_assoc]

/-- C9: on a non-empty fit set and with the correction fixed, the statistics
step stores `DiffMean` = the arithmetic mean of the scaled residuals `d_i`,
`DiffStdDev` = the population standard deviation (the square root of the
mean of squared deviations, dividing by `n`, not `n - 1`), and
`DiffStdErr` = `DiffStdDev / sqrt n`; the square-root values are pinned
exactly by the `IsSqrt` hypotheses. -/
theorem C9_calcDiffStats_population_statistics (lc : ListCal) (sd sn : ℚ)
    (_hne : lc.FittedLines ≠ [])
    (hsd : IsSqrt
      ((lc.FittedLines.map (fun p =>
          (scaledResidual lc.WaveCorrection p -
            (lc.FittedLines.map (scaledResidual lc.WaveCorrection)).sum /
              (lc.FittedLines.length : ℚ)) ^ 2)).sum /
        (lc.FittedLines.length : ℚ)) sd)
    (hsn : IsSqrt ((lc.FittedLines.length : ℚ)) sn) :
    (calcDiffStats lc).DiffMean =
        (lc.FittedLines.map (scaledResidual lc.WaveCorrection)).sum /
          (lc.FittedLines.length : ℚ) ∧
    (calcDiffStats lc).DiffStdDev = sd ∧
    (calcDiffStats lc).DiffStdErr = sd / sn := by
  have hmean := foldl_add_map (scaledResidual lc.WaveCorrection) lc.FittedLines 0
  have hsq := foldl_add_map (fun p =>
    (scaledResidual lc.WaveCorrection p -
      (lc.FittedLines.map (scaledResidual lc.WaveCorrection)).sum /
        (lc.FittedLines.length : ℚ)) ^ 2) lc.FittedLines 0
  refine ⟨?_, ?_, ?_⟩
  · simp only [calcDiffStats, hmean, hsq, zero_add]
  · simp only [calcDiffStats, hmean, hsq, zero_add]
    exact ratSqrt_eq_of_sq hsd
  · simp only [calcDiffStats, hmean, hsq, zero_add]
    rw [ratSqrt_eq_of_sq hsd, ratSqrt_eq_of_sq hsn]

/-- Fixture: a one-pair fit set with residual `d = 1e6` (L = 2, S = 1). -/
def lcStats : ListCal :=
  { ListCal.init with FittedLines := [⟨{ Wavenumber := 2 }, { Wavenumber := 1 }⟩] }

/-- C9 witness: the statistics at the concrete one-pair fit set: mean 1e6,
population standard deviation 0 (one point), standard error 0. -/
theorem C9_calcDiffStats_witness :
    (calcDiffStats lcStats).DiffMean = 1000000 ∧
    (calcDiffStats lcStats).DiffStdDev = 0 ∧
    (calcDiffStats lcStats).DiffStdErr = 0 := by
  have h := C9_calcDiffStats_population_statistics lcStats 0 1
    (by norm_num [lcStats])
    (by
      constructor
      · norm_num
      · norm_num [lcStats, ListCal.init, scaledResidual, Line.wavenumber, LC_DATA_SCALE])
    (by
      constructor
      · norm_num
      · norm_num [lcStats, ListCal.init])
  refine ⟨?_, h.2.1, by rw [h.2.2]; norm_num⟩
  rw [h.1]
  norm_num [lcStats, ListCal.init, scaledResidual, Line.wavenumber, LC_DATA_SCALE]

/-! ## C7 -/

/-- C7: the reported per-line uncertainty of the `.cal` report equals
`max(errorA, errorB)` with `errorA = wavenumber * sqrt(correctionError^2 +
(DiffStdDev/K)^2)` (K = 1e6) and `errorB = sqrt((wavenumber *
correctionError)^2 + centroidError^2)`, where `centroidError =
Width / (1000 * sqrt(Width/(1000*PointSpacing)) * Peak)`; and the report
step mutates no state: the `ListCal` component returned by `saveLineList`
is its argument, and the rows are a pure function of the saved line copies,
the fit state and the configuration. -/
theorem C7_final_error_is_max (lc : ListCal) (l : Line) (sA sc sB : ℚ)
    (hA : IsSqrt (lc.WaveCorrectionError ^ 2 + (lc.DiffStdDev / LC_DATA_SCALE) ^ 2) sA)
    (hc : IsSqrt (l.Width / (1000 * lc.PointSpacing)) sc)
    (hB : IsSqrt ((l.wavenumber * lc.WaveCorrectionError) ^ 2 +
        (l.Width / (1000 * sc * l.Peak)) ^ 2) sB) :
    getCentroidError l lc.PointSpacing = l.Width / (1000 * sc * l.Peak) ∧
    (saveLineRow lc l).FullError = max (l.wavenumber * sA) sB ∧
    (saveLineList lc).1 = lc ∧
    (saveLineList lc).2 =
      (lc.FullLineList.map (fun x => x.setWavCorr lc.WaveCorrection)).map
        (saveLineRow lc) := by
  have hcent : getCentroidError l lc.PointSpacing = l.Width / (1000 * sc * l.Peak) := by
    simp only [getCentroidError]
    rw [ratSqrt_eq_of_sq hc]
  refine ⟨hcent, ?_, rfl, rfl⟩
  unfold saveLineRow fullErrorStdDev
  simp only [hcent]
  rw [ratSqrt_eq_of_sq hA, ratSqrt_eq_of_sq hB]

/-- Fixture: report state with correction error 3 and scaled stddev 4e6. -/
def lcReport : ListCal :=
  { ListCal.init with
    WaveCorrectionError := 3
    DiffStdDev := 4000000
    PointSpacing := 4 }

/-- Fixture: a line whose Brault radicand is also an exact square. -/
def lineReport : Line := { Wavenumber := 1, Peak := 1, Width := 4000 }

/-- C7 witness: at the concrete state, errorA = 1*sqrt(9+16) = 5 and
errorB = sqrt(9 + 16) = 5, so the reported full error is 5. -/
theorem C7_final_error_witness :
    (saveLineRow lcReport lineReport).FullError = 5 := by
  have h := C7_final_error_is_max lcReport lineReport 5 1 5
    (by
      constructor
      · norm_num
      · norm_num [lcReport, ListCal.init, LC_DATA_SCALE])
    (by
      constructor
      · norm_num
      · norm_num [lcReport, lineReport, ListCal.init])
    (by
      constructor
      · norm_num
      · norm_num [lcReport, lineReport, ListCal.init, Line.wavenumber])
  rw [h.2.1]
  norm_num [lineReport, Line.wavenumber]

/-! ## C1 -/

/-- The least-squares objective of `fitFn` is the quadratic
`K^2 * (A*Step^2 - 2*B*Step + C)` in the fit parameter, with `A`, `B`, `C`
the sums of listcal.cpp's per-line ratios. -/
theorem fitChiSq_quadratic (Step : ℚ) (ps : List LinePair)
    (hS : ∀ p ∈ ps, p.Standard.wavenumber ≠ 0) :
    fitChiSq Step ps =
      LC_DATA_SCALE ^ 2 *
        (fitA ps * Step ^ 2 - 2 * fitB ps * Step + fitC ps) := by
  induction ps with
  | nil => simp [fitChiSq, fitA, fitB, fitC]
  | cons p rest ih =>
    have hp : p.Standard.wavenumber ≠ 0 := hS p (List.mem_cons_self _ _)
    have hrest := ih (fun q hq => hS q (List.mem_cons_of_mem _ hq))
    simp only [fitChiSq, fitA, fitB, fitC, List.map_cons, List.sum_cons] at hrest ⊢
    rw [hrest]
    field_simp [scaledResidual]
    ring

/-- The closed-form `epsStar` is a global minimum of the `fitFn` objective
whenever the quadratic coefficient `fitA` is positive. -/
theorem fitChiSq_epsStar_min (ps : List LinePair)
    (hS : ∀ p ∈ ps, p.Standard.wavenumber ≠ 0) (hA : 0 < fitA ps) (Step : ℚ) :
    fitChiSq (epsStar ps) ps ≤ fitChiSq Step ps := by
  rw [fitChiSq_quadratic _ _ hS, fitChiSq_quadratic _ _ hS, epsStar]
  have hA' : fitA ps ≠ 0 := ne_of_gt hA
  have hK : (0:ℚ) < LC_DATA_SCALE ^ 2 := by norm_num [LC_DATA_SCALE]
  have key : fitA ps * (fitA ps * Step ^ 2 - 2 * fitB ps * Step + fitC ps)
      - fitA ps * (fitA ps * (fitB ps / fitA ps) ^ 2
        - 2 * fitB ps * (fitB ps / fitA ps) + fitC ps)
      = (fitA ps * Step - fitB ps) ^ 2 := by
    field_simp
    ring
  have h2 : fitA ps * (fitB ps / fitA ps) ^ 2
      - 2 * fitB ps * (fitB ps / fitA ps) + fitC ps
      ≤ fitA ps * Step ^ 2 - 2 * fitB ps * Step + fitC ps := by
    nlinarith [sq_nonneg (fitA ps * Step - fitB ps), key, hA]
  exact mul_le_mul_of_nonneg_left h2 (le_of_lt hK)

/-- Fixture: fit pair (L = 1, S = 2). -/
def pairSkewA : LinePair := ⟨{ Wavenumber := 1 }, { Wavenumber := 2 }⟩

/-- Fixture: fit pair (L = 3, S = 2). -/
def pairSkewB : LinePair := ⟨{ Wavenumber := 3 }, { Wavenumber := 2 }⟩

/-- Fixture: a two-pair fit set whose least-squares optimum differs from the
zero of the mean residual. -/
def psSkewed : List LinePair := [pairSkewA, pairSkewB]

/-- C1 (code evaluation at the failing input): `derivFn` hands GSL the
constant Jacobian entry `LC_DATA_SCALE` instead of the true derivative
`L * LC_DATA_SCALE / S` of the `fitFn` residual.  On the fit set
{(L,S)} = {(1,2),(3,2)} with the default starting correction 0, the
resulting solver gradient `Jᵀf` is proportional to the plain residual sum,
which is already 0 at the start, so the Levenberg-Marquardt step vanishes
for every damping value, the delta test passes at once and the fit accepts
correction 0 - while the closed-form least-squares optimum of its own
objective is `epsStar = -1/5`, strictly better in chi-square and farther
from 0 than the solver tolerance. -/
theorem C1_coded_jacobian_accepts_nonoptimal_start :
    derivFnEntry ≠ trueDerivEntry pairSkewA ∧
    gradientCoded 0 psSkewed = 0 ∧
    solverLoop (lmStepCoded psSkewed) SOLVER_TOL SOLVER_MAX_ITERATIONS 0 = (0, true) ∧
    epsStar psSkewed = -(1/5) ∧
    fitChiSq (-(1/5)) psSkewed < fitChiSq 0 psSkewed ∧
    SOLVER_TOL < |0 - epsStar psSkewed| := by
  have hgrad : gradientCoded 0 psSkewed = 0 := by
    norm_num [gradientCoded, derivFnEntry, scaledResidual, psSkewed,
      pairSkewA, pairSkewB, Line.wavenumber, LC_DATA_SCALE]
  have hstep : lmStepCoded psSkewed 0 = 0 := by
    rw [lmStepCoded, hgrad]
    norm_num
  have heps : epsStar psSkewed = -(1/5) := by
    norm_num [epsStar, fitA, fitB, psSkewed, pairSkewA, pairSkewB,
      Line.wavenumber]
  refine ⟨?_, hgrad, ?_, heps, ?_, ?_⟩
  · norm_num [derivFnEntry, trueDerivEntry, LC_DATA_SCALE, pairSkewA,
      Line.wavenumber]
  · rw [show SOLVER_MAX_ITERATIONS = 499 + 1 from rfl]
    simp [solverLoop, hstep, testDelta_zero]
  · norm_num [fitChiSq, scaledResidual, psSkewed, pairSkewA, pairSkewB,
      Line.wavenumber, LC_DATA_SCALE]
  · rw [heps, show (0:ℚ) - (-(1/5)) = 1/5 by norm_num,
      abs_of_pos (by norm_num : (0:ℚ) < 1/5)]
    norm_num [SOLVER_TOL]

/-! ## C8 -/

/-- When no pair trips the discard test, the rejection step is the
identity: nothing moves and the count is 0. -/
theorem removeBadLines_noop (lc : ListCal)
    (h : ∀ p ∈ lc.FittedLines, isBadLine lc p = false) :
    removeBadLines lc = (lc, 0) := by
  have h1 : lc.FittedLines.filter (fun p => !isBadLine lc p) = lc.FittedLines :=
    List.filter_eq_self.mpr (fun a ha => by simp [h a ha])
  have h2 : lc.FittedLines.filter (isBadLine lc) = [] :=
    List.filter_eq_nil_iff.mpr (fun a ha => by simp [h a ha])
  simp only [removeBadLines, removeBadLinesGo_eq, h1, h2,
    List.reverse_nil, List.append_nil]
  rfl

/-- Fixture: fit pair (L = 100, S = 101). -/
def pairExactA : LinePair := ⟨{ Wavenumber := 100 }, { Wavenumber := 101 }⟩

/-- Fixture: fit pair (L = 200, S = 202). -/
def pairExactB : LinePair := ⟨{ Wavenumber := 200 }, { Wavenumber := 202 }⟩

/-- Fixture: the exactly-scaled fit set of spec S8 test 2. -/
def psExact : List LinePair := [pairExactA, pairExactB]

/-- Fixture: the post-fit state on the exactly-scaled set. -/
def lcExact : ListCal :=
  { ListCal.init with
    FittedLines := psExact
    WaveCorrection := 1/100 }

/-- C8: on List = [100, 200] against Standard = [101, 202] (the list scaled
by exactly 1.01): the closed-form least-squares optimum is exactly 1/100;
the coded-Jacobian gradient also vanishes there (so the solver's stationary
point coincides with it); 1/100 is the only zero of the objective (every
other correction has strictly positive chi-square, so the fit recovers
1/100 to within the solver tolerance); the statistics step yields
`residualMean = residualStdDev = residualStdErr = 0`; the rejection step
removes zero pairs for every non-negative discard limit, so the reject and
refit loop of ftscalibrate.cpp terminates after its first round; and in
general an exactly `(1+e)`-scaled standard gives zero residuals at `e` and
`epsStar = e`. -/
theorem C8_exact_scaling_recovery :
    epsStar psExact = 1/100 ∧
    gradientCoded (1/100) psExact = 0 ∧
    (∀ e : ℚ, fitChiSq e psExact = 0 ↔ e = 1/100) ∧
    calcDiffStats lcExact
      = { lcExact with DiffMean := 0, DiffStdDev := 0, DiffStdErr := 0 } ∧
    (∀ dl : ℚ, 0 ≤ dl →
      removeBadLines { lcExact with DiscardLimit := dl }
        = ({ lcExact with DiscardLimit := dl }, 0)) ∧
    (∀ (e : ℚ) (ps : List LinePair),
      (∀ p ∈ ps, p.Standard.wavenumber ≠ 0 ∧
        p.Standard.wavenumber = p.List.wavenumber * (1 + e)) →
      (∀ p ∈ ps, scaledResidual e p = 0) ∧
      (fitA ps ≠ 0 → epsStar ps = e)) := by
  refine ⟨?_, ?_, ?_, ?_, ?_, ?_⟩
  · norm_num [epsStar, fitA, fitB, psExact, pairExactA, pairExactB,
      Line.wavenumber]
  · norm_num [gradientCoded, derivFnEntry, scaledResidual, psExact,
      pairExactA, pairExactB, Line.wavenumber, LC_DATA_SCALE]
  · intro e
    have hq : fitChiSq e psExact
        = (LC_DATA_SCALE ^ 2 * 20000/10201) * (e - 1/100)^2 := by
      simp only [fitChiSq, psExact, pairExactA, pairExactB, List.map_cons,
        List.map_nil, List.sum_cons, List.sum_nil, scaledResidual,
        Line.wavenumber]
      ring
    rw [hq]
    constructor
    · intro h
      have hc : ((LC_DATA_SCALE:ℚ) ^ 2 * 20000/10201) ≠ 0 := by
        norm_num [LC_DATA_SCALE]
      have h2 : (e - 1/100)^2 = 0 :=
        (mul_eq_zero.mp h).resolve_left hc
      have h3 : e - 1/100 = 0 := by
        exact pow_eq_zero_iff two_ne_zero |>.mp h2
      linarith
    · rintro rfl
      ring
  · norm_num [calcDiffStats, scaledResidual, Line.wavenumber, LC_DATA_SCALE,
      lcExact, psExact, pairExactA, pairExactB, ListCal.init, ratSqrt_zero]
  · intro dl hdl
    have hres : ∀ p ∈ psExact, scaledResidual (1/100) p = 0 := by
      intro p hp
      simp only [psExact, List.mem_cons, List.not_mem_nil, or_false] at hp
      rcases hp with rfl | rfl <;>
        norm_num [scaledResidual, Line.wavenumber, LC_DATA_SCALE,
          pairExactA, pairExactB]
    have hbad : ∀ p ∈ psExact,
        isBadLine { lcExact with DiscardLimit := dl } p = false := by
      intro p hp
      have h0 := hres p hp
      simp only [isBadLine, decide_eq_false_iff_not, not_lt]
      rw [show ({ lcExact with DiscardLimit := dl } : ListCal).WaveCorrection
            = 1/100 from rfl,
        show ({ lcExact with DiscardLimit := dl } : ListCal).DiffMean
            = 0 from rfl,
        show ({ lcExact with DiscardLimit := dl } : ListCal).DiffStdDev
            = 0 from rfl,
        h0]
      norm_num
    exact removeBadLines_noop { lcExact with DiscardLimit := dl } hbad
  · intro e ps h
    have hres : ∀ p ∈ ps, scaledResidual e p = 0 := by
      intro p hp
      obtain ⟨hS0, hSe⟩ := h p hp
      simp [scaledResidual, hSe]
    refine ⟨hres, ?_⟩
    have key : ∀ (qs : List LinePair),
        (∀ p ∈ qs, p.Standard.wavenumber ≠ 0 ∧
          p.Standard.wavenumber = p.List.wavenumber * (1 + e)) →
        fitB qs = e * fitA qs := by
      intro qs
      induction qs with
      | nil => simp [fitA, fitB]
      | cons p rest ih =>
        intro hq
        obtain ⟨hS0, hSe⟩ := hq p (List.mem_cons_self _ _)
        have ih' := ih (fun q hqq => hq q (List.mem_cons_of_mem _ hqq))
        simp only [fitA, fitB, List.map_cons, List.sum_cons] at ih' ⊢
        rw [ih']
        have hL1 : p.List.wavenumber * (1 + e) ≠ 0 := hSe ▸ hS0
        have hterm : p.List.wavenumber / p.Standard.wavenumber *
            ((p.Standard.wavenumber - p.List.wavenumber) / p.Standard.wavenumber)
            = e * (p.List.wavenumber / p.Standard.wavenumber) ^ 2 := by
          rw [hSe]
          field_simp
          ring
        rw [hterm]
        ring
    intro hA
    rw [epsStar, key ps h, mul_div_assoc, div_self hA, mul_one]
